import Mathlib

/-
Verification development for the AllergyMenuAssistant repository.

The development shallowly embeds the core of the repository:
  - the credential vault (src/line-bot/src/user_data_handler.py and
    src/menu-analysis/src/user_data_handler.py, Fernet wrappers),
  - the user/allergy relational store (asyncpg queries in the same files),
  - the line-bot conversation state machine (src/line-bot/src/main.py),
  - the telegram-bot allergy dialog (src/telegram-bot/src/main.py),
  - the OCR wrapper (src/menu-analysis/src/ocr.py),
  - the three-stage LLM pipeline (src/menu-analysis/src/llm.py) and the
    /analyze endpoint (src/menu-analysis/src/main.py),
  - the telegram adapter call into /analyze
    (src/telegram-bot/src/send_anaylsis.py).

External collaborators (the cryptography library, PostgreSQL, cv2,
pytesseract, the Gemini API, aiohttp) are modeled as oracles or as small
executable models; the repository code itself is translated statement by
statement.
-/

namespace Fernet

/-- Models the external SHA-256 digest used to derive the Fernet key from the
deployment secret (hashlib.sha256(secret.encode()).digest() followed by
urlsafe base64). Only determinism of the derivation is relied on. -/
def deriveKey (secret : String) : List Nat :=
  secret.data.map Char.toNat

/-- Models the UTF-8 byte encoding of a plaintext string. -/
def strBytes (s : String) : List Nat :=
  s.data.map Char.toNat

/-- Models a Fernet token (authenticated symmetric ciphertext) from the
external cryptography library. The mac field stands for the HMAC, which in
Fernet covers both the key and the body; the payload stands for the AES-CTR
body, represented by the plaintext it decrypts to under the key. A corrupted
or unparseable ciphertext string corresponds to a token whose mac does not
match (an unparseable string trivially fails inside the library, which the
vault maps to the same soft failure). -/
structure Token where
  mac : List Nat
  payload : String
deriving DecidableEq, Repr

end Fernet

namespace Vault

/-- Embeds the source function defined in both user_data_handler.py files:
encryption of an API key with the process-wide Fernet instance keyed by the
digest of the deployment secret. -/
def encrypt_key (secret k : String) : Fernet.Token :=
  ⟨Fernet.deriveKey secret ++ Fernet.strBytes k, k⟩

/-- Embeds the source function defined in both user_data_handler.py files:
decryption of a stored token. The try/except that converts every failure
raised by the Fernet library into None is modeled by the total Option
result; the mac check is the authentication performed by Fernet.decrypt. -/
def decrypt_key (secret : String) (c : Fernet.Token) : Option String :=
  if c.mac = Fernet.deriveKey secret ++ Fernet.strBytes c.payload then
    some c.payload
  else
    none

end Vault

/-- A row of the users table: users(id, platform, platform_user_id). -/
structure UserRow where
  id : Nat
  platform : String
  puid : String
deriving DecidableEq, Repr

/-- A row of the allergies table: allergies(id, name unique). -/
structure AllergyRow where
  id : Nat
  name : String
deriving DecidableEq, Repr

/-- The relational store.  nextUserId and nextAllergyId model the serial
primary key sequences (PostgreSQL serial columns start at 1). -/
structure DB where
  users : List UserRow
  nextUserId : Nat
  allergies : List AllergyRow
  nextAllergyId : Nat
  userAllergies : List (Nat × Nat)
  apiKeys : List (Nat × Fernet.Token)
deriving DecidableEq, Repr

/-- The freshly initialized database. -/
def emptyDB : DB := ⟨[], 1, [], 1, [], []⟩

namespace Store

/-- SELECT id FROM users WHERE platform = $1 AND platform_user_id = $2. -/
def findUser (db : DB) (pl puid : String) : Option Nat :=
  (db.users.find? (fun u => u.platform = pl ∧ u.puid = puid)).map UserRow.id

/-- Embeds _get_or_create_user of src/line-bot/src/user_data_handler.py:
select the internal id, else insert a fresh row and return its serial id. -/
def getOrCreateUser (db : DB) (pl puid : String) : Nat × DB :=
  match findUser db pl puid with
  | some uid => (uid, db)
  | none =>
      (db.nextUserId,
        { db with
            users := db.users ++ [⟨db.nextUserId, pl, puid⟩],
            nextUserId := db.nextUserId + 1 })

/-- The join performed by get_allergies:
SELECT a.name FROM allergies a JOIN user_allergies ua ON a.id = ua.allergy_id
WHERE ua.user_id = $1. -/
def allergyNamesOf (db : DB) (uid : Nat) : List String :=
  db.userAllergies.filterMap (fun p =>
    if p.1 = uid then
      (db.allergies.find? (fun a => a.id = p.2)).map AllergyRow.name
    else
      none)

/-- Embeds get_allergies of src/line-bot/src/user_data_handler.py (the
platform is a parameter here; the line bot fixes it to "line").  The
get-or-create side effect on the users table is part of the source. -/
def get_allergies (db : DB) (pl puid : String) : List String × DB :=
  let r := getOrCreateUser db pl puid
  (allergyNamesOf r.2 r.1, r.2)

/-- INSERT INTO allergies (name) VALUES ($1) ON CONFLICT (name) DO UPDATE SET
name = EXCLUDED.name RETURNING id: get or create the allergy vocabulary row. -/
def upsertAllergy (db : DB) (name : String) : Nat × DB :=
  match (db.allergies.find? (fun a => a.name = name)).map AllergyRow.id with
  | some aid => (aid, db)
  | none =>
      (db.nextAllergyId,
        { db with
            allergies := db.allergies ++ [⟨db.nextAllergyId, name⟩],
            nextAllergyId := db.nextAllergyId + 1 })

/-- INSERT INTO user_allergies (user_id, allergy_id) VALUES ($1, $2)
ON CONFLICT DO NOTHING. -/
def linkUserAllergy (db : DB) (uid aid : Nat) : DB :=
  if (uid, aid) ∈ db.userAllergies then db
  else { db with userAllergies := db.userAllergies ++ [(uid, aid)] }

/-- DELETE FROM user_allergies WHERE user_id = $1. -/
def clearUserAllergies (db : DB) (uid : Nat) : DB :=
  { db with userAllergies := db.userAllergies.filter (fun p => p.1 ≠ uid) }

/-- The body of the loop over the new allergy names in update_allergies. -/
def addAllergyStep (uid : Nat) (db : DB) (name : String) : DB :=
  let r := upsertAllergy db name
  linkUserAllergy r.2 uid r.1

/-- Embeds update_allergies of src/line-bot/src/user_data_handler.py:
get-or-create the user, delete the existing associations, then (unless the
list is empty, in which case the early return leaves the cleared state) upsert
each name into the vocabulary and link it.  A fold over the empty list is the
early return. -/
def update_allergies (db : DB) (pl puid : String) (names : List String) : DB :=
  let r := getOrCreateUser db pl puid
  let cleared := clearUserAllergies r.2 r.1
  names.foldl (addAllergyStep r.1) cleared

/-- Embeds set_api_key of src/line-bot/src/user_data_handler.py.  None
deletes the credential row; a value is encrypted and upserted
(ON CONFLICT (user_id) DO UPDATE, so under the user_id uniqueness constraint
the single existing row is replaced in place). -/
def set_api_key (secret : String) (db : DB) (pl puid : String)
    (apiKey : Option String) : DB :=
  let r := getOrCreateUser db pl puid
  match apiKey with
  | none =>
      { r.2 with apiKeys := r.2.apiKeys.filter (fun p => p.1 ≠ r.1) }
  | some k =>
      let tok := Vault.encrypt_key secret k
      if (r.2.apiKeys.find? (fun p => p.1 = r.1)).isSome then
        { r.2 with
            apiKeys := r.2.apiKeys.map (fun p => if p.1 = r.1 then (r.1, tok) else p) }
      else
        { r.2 with apiKeys := r.2.apiKeys ++ [(r.1, tok)] }

/-- Embeds get_api_key of src/line-bot/src/user_data_handler.py: get-or-create
the user, select the stored token, decrypt it if present. -/
def get_api_key (secret : String) (db : DB) (pl puid : String) :
    Option String × DB :=
  let r := getOrCreateUser db pl puid
  match (r.2.apiKeys.find? (fun p => p.1 = r.1)).map Prod.snd with
  | some tok => (Vault.decrypt_key secret tok, r.2)
  | none => (none, r.2)

/-- Embeds delete_user of src/line-bot/src/user_data_handler.py: DELETE FROM
users WHERE platform = $1 AND platform_user_id = $2, with the schema cascade
removing the dependent credential and association rows. -/
def delete_user (db : DB) (pl puid : String) : DB :=
  let deleted := (db.users.filter (fun u => u.platform = pl ∧ u.puid = puid)).map UserRow.id
  { db with
      users := db.users.filter (fun u => ¬ (u.platform = pl ∧ u.puid = puid)),
      userAllergies := db.userAllergies.filter (fun p => ¬ p.1 ∈ deleted),
      apiKeys := db.apiKeys.filter (fun p => ¬ p.1 ∈ deleted) }

end Store

namespace LineBot

/-- The platform constant of src/line-bot/src/user_data_handler.py. -/
def PLATFORM : String := "line"

/-- get_allergies of the line bot (platform fixed to "line"). -/
def get_allergies (db : DB) (puid : String) : List String × DB :=
  Store.get_allergies db PLATFORM puid

/-- update_allergies of the line bot. -/
def update_allergies (db : DB) (puid : String) (names : List String) : DB :=
  Store.update_allergies db PLATFORM puid names

/-- set_api_key of the line bot. -/
def set_api_key (secret : String) (db : DB) (puid : String)
    (k : Option String) : DB :=
  Store.set_api_key secret db PLATFORM puid k

/-- get_api_key of the line bot. -/
def get_api_key (secret : String) (db : DB) (puid : String) :
    Option String × DB :=
  Store.get_api_key secret db PLATFORM puid

/-- delete_user of the line bot. -/
def delete_user (db : DB) (puid : String) : DB :=
  Store.delete_user db PLATFORM puid

end LineBot

/-- The well-formedness invariant the PostgreSQL schema maintains on the
allergy side of the store: serial ids of vocabulary rows are below the
sequence counter and unique, and every association row references an existing
vocabulary row (the foreign key constraint). -/
structure Store.WF (db : DB) : Prop where
  allergyIdLt : ∀ a ∈ db.allergies, a.id < db.nextAllergyId
  allergyIdNodup : (db.allergies.map AllergyRow.id).Nodup
  uaFK : ∀ pr ∈ db.userAllergies, ∃ a ∈ db.allergies, a.id = pr.2

namespace MenuAnalysis

/-- Embeds _get_user of src/menu-analysis/src/user_data_handler.py: a pure
SELECT that returns None for an unknown (platform, platform_user_id) pair
instead of creating a row. -/
def _get_user (db : DB) (pl puid : String) : Option Nat :=
  Store.findUser db pl puid

/-- Embeds get_api_key of src/menu-analysis/src/user_data_handler.py: look the
user up (without creating it), then select and decrypt the stored token.  The
returned DB is unchanged because the source performs only SELECT queries. -/
def get_api_key (secret : String) (db : DB) (pl puid : String) :
    Option String × DB :=
  match _get_user db pl puid with
  | none => (none, db)
  | some uid =>
      match (db.apiKeys.find? (fun p => p.1 = uid)).map Prod.snd with
      | some tok => (Vault.decrypt_key secret tok, db)
      | none => (none, db)

end MenuAnalysis

namespace TelegramBot

/-- The platform constant of the telegram adapter. -/
def PLATFORM : String := "telegram"

/-- Modelled from the spec: src/telegram-bot/src/user_data_handler.py is not
among the sources (src/telegram-bot/src/main.py imports it).  The spec store
contract getAllergies (get-or-create user, empty set if none configured) with
platform "telegram" mirrors the line-bot implementation. -/
def get_allergies (db : DB) (puid : String) : List String × DB :=
  Store.get_allergies db PLATFORM puid

/-- Modelled from the spec: replaceAllergies for the telegram platform, see
TelegramBot.get_allergies. -/
def update_allergies (db : DB) (puid : String) (names : List String) : DB :=
  Store.update_allergies db PLATFORM puid names

/-- Modelled from the spec: setCredential for the telegram platform, see
TelegramBot.get_allergies. -/
def set_api_key (secret : String) (db : DB) (puid : String)
    (k : Option String) : DB :=
  Store.set_api_key secret db PLATFORM puid k

/-- Modelled from the spec: getCredential for the telegram platform, see
TelegramBot.get_allergies. -/
def get_api_key (secret : String) (db : DB) (puid : String) :
    Option String × DB :=
  Store.get_api_key secret db PLATFORM puid

end TelegramBot

namespace PyStr

/-- The character class Python str.strip removes (ASCII whitespace). -/
def isSpace (c : Char) : Bool :=
  c = ' ' || c = '\t' || c = '\n' || c = '\r'

/-- Models Python str.strip(): drop whitespace from both ends. -/
def strip (s : String) : String :=
  String.mk (((s.data.dropWhile isSpace).reverse.dropWhile isSpace).reverse)

/-- Models Python str.lower(). -/
def lower (s : String) : String :=
  String.mk (s.data.map Char.toLower)

/-- Models Python str.split(sep) for a one-character separator, over the
character list: splitting the empty string yields one empty field. -/
def splitChars (sep : Char) : List Char → List (List Char)
  | [] => [[]]
  | c :: rest =>
      if c = sep then [] :: splitChars sep rest
      else
        match splitChars sep rest with
        | [] => [[c]]
        | h :: t => (c :: h) :: t

/-- Models Python str.split(sep) for a one-character separator. -/
def split (s : String) (sep : Char) : List String :=
  (splitChars sep s.data).map String.mk

end PyStr

/-- The conversation state of the line bot process: the database plus the
process-wide user_states dict of src/line-bot/src/main.py (modeled as an
association list with unique keys, the dict invariant). -/
structure BotSt where
  db : DB
  userStates : List (String × String)
deriving DecidableEq, Repr

/-- Dictionary read: user_states.get / the `in` test combined with indexing. -/
def statesLookup (m : List (String × String)) (k : String) : Option String :=
  (m.find? (fun p => p.1 = k)).map Prod.snd

/-- user_states.pop(k, None): remove the binding of k. -/
def statesPop (m : List (String × String)) (k : String) :
    List (String × String) :=
  m.filter (fun p => p.1 ≠ k)

/-- user_states[k] = v: replace the binding of k, or append a fresh one. -/
def statesInsert (m : List (String × String)) (k v : String) :
    List (String × String) :=
  if (m.find? (fun p => p.1 = k)).isSome then
    m.map (fun p => if p.1 = k then (k, v) else p)
  else
    m ++ [(k, v)]

/-- The comma-separated allergy list parse of handle_text_message:
the list comprehension over text.split with str.strip and the truthiness
filter. -/
def parseAllergies (text : String) : List String :=
  ((PyStr.split text ',').map PyStr.strip).filter (fun a => a ≠ "")

/-- Reply text constants of src/line-bot/src/main.py. -/
def cancelMsg : String := "已取消設定。"

/-- Reply after clearing the stored API key. -/
def clearedKeyMsg : String := "已清除 Gemini API Key。"

/-- Reply after storing an API key. -/
def setKeyMsg : String := "已成功設定 Gemini API Key。"

/-- Reply after clearing the allergy list. -/
def clearedAllergyMsg : String := "已清除過敏原。"

/-- Reply after storing an allergy list. -/
def allergySuccessMsg (l : List String) : String :=
  "已成功設定過敏原：\n" ++ String.intercalate ", " l

/-- Prompt sent when entering the setapikey dialog. -/
def apiKeyPromptMsg : String :=
  "請輸入您的 Gemini API Key\n\n輸入 /clear 清除 API Key\n輸入 /cancel 取消"

/-- Prompt sent when entering the setallergy dialog, showing the currently
configured allergens when the list is not empty. -/
def allergyPromptMsg (cur : List String) : String :=
  "請輸入您對什麼過敏，以逗號(,)分隔\n" ++
    (if cur.isEmpty then "" else
      "目前已設定過敏原:\n" ++ String.intercalate "、" cur ++ "\n") ++
    "\n輸入 /cancel 取消\n輸入 /clear 清除"

/-- Help text of the /help and /start commands. -/
def helpMsg : String :=
  "我是智能過敏菜單助理（AllergyMenuAssistant）\n請輸入 /setallergy 設定您的過敏原，\n並利用 /setapikey 設定您的 Gemini API Key。"

/-- Embeds handle_text_message of src/line-bot/src/main.py.  Returns the state
after the event and the reply text (the quick-reply button template attached
to some replies carries no state and is not modeled).  A pending dialog tag is
always popped before it is interpreted; commands are only recognized when no
tag is pending, because the command branches are elifs of the membership
test. -/
def handle_text_message (secret : String) (st : BotSt)
    (userId rawText : String) : BotSt × String :=
  let text := PyStr.strip rawText
  match statesLookup st.userStates userId with
  | some state =>
      let states1 := statesPop st.userStates userId
      if state = "setapikey" then
        if PyStr.lower text = "/cancel" then (⟨st.db, states1⟩, cancelMsg)
        else if PyStr.lower text = "/clear" then
          (⟨LineBot.set_api_key secret st.db userId none, states1⟩, clearedKeyMsg)
        else
          (⟨LineBot.set_api_key secret st.db userId (some text), states1⟩, setKeyMsg)
      else if state = "setallergy" then
        if PyStr.lower text = "/cancel" then (⟨st.db, states1⟩, cancelMsg)
        else if PyStr.lower text = "/clear" then
          (⟨LineBot.update_allergies st.db userId [], states1⟩, clearedAllergyMsg)
        else
          (⟨LineBot.update_allergies st.db userId (parseAllergies text), states1⟩,
            allergySuccessMsg (parseAllergies text))
      else
        (⟨st.db, states1⟩, text)
  | none =>
      if PyStr.lower text = "/setapikey" then
        (⟨st.db, statesInsert st.userStates userId "setapikey"⟩, apiKeyPromptMsg)
      else if PyStr.lower text = "/setallergy" then
        let r := LineBot.get_allergies st.db userId
        (⟨r.2, statesInsert st.userStates userId "setallergy"⟩, allergyPromptMsg r.1)
      else if PyStr.lower text = "/help" ∨ PyStr.lower text = "/start" then
        (⟨st.db, st.userStates⟩, helpMsg)
      else
        (⟨st.db, st.userStates⟩, text)

/-- Embeds the state effects of handle_follow of src/line-bot/src/main.py:
after the welcome reply, the credential is cleared, the allergy list is
cleared, and any pending dialog tag is popped. -/
def handle_follow (secret : String) (st : BotSt) (userId : String) : BotSt :=
  ⟨LineBot.update_allergies (LineBot.set_api_key secret st.db userId none)
      userId [],
    statesPop st.userStates userId⟩

/-- Embeds handle_unfollow of src/line-bot/src/main.py: delete the user
(cascading) and pop any pending dialog tag. -/
def handle_unfollow (st : BotSt) (userId : String) : BotSt :=
  ⟨LineBot.delete_user st.db userId, statesPop st.userStates userId⟩

/-- The outbound interactions a message handler performs, in order: replies
bound to the event, the platform image download, the call into the
menu-analysis service, and the unsolicited follow-up push. -/
inductive BotAction where
  | reply (text : String)
  | fetchImage
  | analyzeCall
  | push (text : String)
deriving DecidableEq, Repr

/-- The prompt sent when no credential is configured. -/
def noKeyPrompt : String := "請先使用 /setapikey 指令設定 Gemini API Key"

/-- The acknowledgment text of the line bot image handler. -/
def ackMessage (allergies : List String) : String :=
  "已收到請求，請稍候..." ++
    (if allergies.isEmpty then
      "\n(目前尚未設定過敏原，可以用 /setallergy 進行設定)"
     else
      "\n我會依據您的過敏原：(" ++ String.intercalate "、" allergies ++ ")給您餐點建議。")

/-- Embeds _process_image_message of src/line-bot/src/main.py as the sequence
of outbound actions it performs.  analysisResult stands for the text the
collaborating menu-analysis service returns for the allergy list.  With no
usable credential the handler replies with the set-api-key prompt and
returns before fetching the image or calling the service. -/
def _process_image_message (secret : String) (db : DB) (userId : String)
    (analysisResult : List String → String) : DB × List BotAction :=
  let r := LineBot.get_api_key secret db userId
  match r.1 with
  | none => (r.2, [.reply noKeyPrompt])
  | some _ =>
      let ra := LineBot.get_allergies r.2 userId
      (ra.2, [.reply (ackMessage ra.1), .fetchImage, .analyzeCall,
        .push (analysisResult ra.1)])

namespace TelegramBot

/-- The python-telegram-bot ConversationHandler outcome: END leaves the
dialog; returning a state number keeps the conversation in that state. -/
inductive ConvState where
  | endConv
  | setApikeyInput
  | setAllergyInput
deriving DecidableEq, Repr

/-- Embeds handle_input_allergy_format of src/telegram-bot/src/main.py: a
blank input raises ValueError (the none result); any other input is split on
commas, trimmed, and filtered of empties. -/
def handle_input_allergy_format (allergy : String) : Option (List String) :=
  if PyStr.strip allergy ≠ "" then
    some (((PyStr.split allergy ',').map PyStr.strip).filter (fun a => a ≠ ""))
  else
    none

/-- The telegram success reply for a stored allergy list. -/
def tgAllergySuccessMsg (l : List String) : String :=
  "已成功設定過敏原：\n" ++ String.intercalate "、" l ++ "\n"

/-- The telegram re-prompt after a format error. -/
def reSubmitPrompt (cur : List String) : String :=
  "不好意思，您輸入的格式不正確\n請輸入您對什麼過敏，以逗號(,)分隔\n" ++
    (if cur.isEmpty then "" else
      "目前已設定過敏原:\n" ++ String.intercalate "、" cur ++ "\n") ++
    "\n輸入 /cancel 取消\n輸入 /clear 清除"

/-- Embeds setallergy_receive of src/telegram-bot/src/main.py: a parse
success stores the list and ends the conversation; the ValueError path
re-prompts and stays in SET_ALLERGY_INPUT. -/
def setallergy_receive (db : DB) (userId text : String) :
    DB × String × ConvState :=
  match handle_input_allergy_format text with
  | some l => (update_allergies db userId l, tgAllergySuccessMsg l, .endConv)
  | none =>
      let r := get_allergies db userId
      (r.2, reSubmitPrompt r.1, .setAllergyInput)

/-- The telegram acknowledgment text (fullwidth parentheses in the source). -/
def tgAckMessage (allergies : List String) : String :=
  "已收到請求，請稍候..." ++
    (if allergies.isEmpty then
      "\n(目前尚未設定過敏原，可以用 /setallergy 進行設定)"
     else
      "\n我會依據您的過敏原：（" ++ String.intercalate "、" allergies ++ "）給您餐點建議。")

/-- Embeds handle_image_message of src/telegram-bot/src/main.py as the
sequence of outbound actions: the photo is downloaded first, then the
credential is checked; with no usable credential the handler replies with the
set-api-key prompt and returns without calling the analysis service. -/
def handle_image_message (secret : String) (db : DB) (userId : String)
    (analysisResult : List String → String) : DB × List BotAction :=
  let r := get_api_key secret db userId
  match r.1 with
  | none => (r.2, [.fetchImage, .reply noKeyPrompt])
  | some _ =>
      let ra := get_allergies r.2 userId
      (ra.2, [.fetchImage, .reply (tgAckMessage ra.1), .analyzeCall,
        .push (analysisResult ra.1)])

end TelegramBot

/-- The external cv2 operations used by src/menu-analysis/src/ocr.py, as
oracles over an abstract image type. -/
structure CvOps (Img : Type) where
  imdecode : List Nat → Option Img
  resize2xCubic : Img → Img
  bgrToGray : Img → Img
  otsuBinarize : Img → Img

/-- Embeds preprocess_image of src/menu-analysis/src/ocr.py: upscale by two
with cubic interpolation, convert to grayscale, apply Otsu thresholding. -/
def preprocess_image {Img : Type} (cv : CvOps Img) (image : Img) : Img :=
  cv.otsuBinarize (cv.bgrToGray (cv.resize2xCubic image))

/-- The outcome of the OCR wrapper: either the recognized text or the
exception raised on an undecodable image. -/
inductive OcrOutcome where
  | invalidImage
  | text (t : String)
deriving DecidableEq, Repr

/-- Embeds extract_raw_text of src/menu-analysis/src/ocr.py.  cv2.imdecode
returns None for bytes the codec cannot decode; the None image is then passed
to cv2.resize inside preprocess_image, which raises — the invalidImage
outcome.  For a decodable image, pytesseract (the tesseract oracle) runs on
the preprocessed image. -/
def extract_raw_text {Img : Type} (cv : CvOps Img) (tesseract : Img → String)
    (imageBytes : List Nat) : OcrOutcome :=
  match cv.imdecode imageBytes with
  | none => .invalidImage
  | some image => .text (tesseract (preprocess_image cv image))

/-- One Gemini exchange as seen by src/menu-analysis/src/llm.py: the provider
either raises or returns a completion whose text may be missing. -/
inductive LLMResult where
  | raise
  | completion (text : Option String)

/-- The provider oracle: stage number and stage input to provider outcome. -/
abbrev LLMProvider := Nat → String → LLMResult

/-- The pythonic `response.text or ""` fallback: a missing or empty
completion text degrades to the empty string. -/
def respTextOrEmpty (t : Option String) : String :=
  match t with
  | none => ""
  | some s => s

/-- Embeds call_llm1 of src/menu-analysis/src/llm.py (stage 1, dish-name
extraction): one generate_content call on the raw OCR text; a raised provider
error propagates, a missing completion text degrades to "". -/
def call_llm1 (menuText : String) (p : LLMProvider) : Except String String :=
  match p 1 menuText with
  | .raise => .error "LLM provider error in stage 1"
  | .completion t => .ok (respTextOrEmpty t)

/-- Embeds call_llm2 (stage 2, allergen enumeration on the stage 1 output). -/
def call_llm2 (cleanedMenuText : String) (p : LLMProvider) :
    Except String String :=
  match p 2 cleanedMenuText with
  | .raise => .error "LLM provider error in stage 2"
  | .completion t => .ok (respTextOrEmpty t)

/-- Embeds call_llm3 (stage 3, personalized classification).  The user
content combines the allergy list with the stage 2 output; the provider
oracle is keyed by the stage 2 output, whose value is what the control flow
depends on. -/
def call_llm3 (llm2Response : String) (allergicList : List String)
    (p : LLMProvider) : Except String String :=
  match p 3 llm2Response with
  | .raise => .error "LLM provider error in stage 3"
  | .completion t => .ok (respTextOrEmpty t)

/-- Embeds generate_response of src/menu-analysis/src/llm.py: the three
stages run strictly in sequence, each consuming the previous output; there is
no try/except here, so an exception raised at any stage propagates to the
caller (the error branches). -/
def generate_response (menuText : String) (allergicList : List String)
    (p : LLMProvider) : Except String String :=
  match call_llm1 menuText p with
  | .error e => .error e
  | .ok llm1Response =>
      match call_llm2 llm1Response p with
      | .error e => .error e
      | .ok llm2Response => call_llm3 llm2Response allergicList p

/-- A JSON-ish value, enough to form the /analyze response body. -/
inductive JVal where
  | s (v : String)
  | n (v : Nat)
  | arr (v : List String)
  | obj (v : List (String × JVal))

/-- The metadata dict echoed by /analyze, after raw_text is inserted. -/
def metadataDict (al : List String) (pl puid rawText : String) :
    List (String × JVal) :=
  [("allergic_list", .arr al), ("platform", .s pl),
   ("platform_user_id", .s puid), ("raw_text", .s rawText)]

/-- The response_dict literal of analyze_menu in
src/menu-analysis/src/main.py: exactly the keys response, metadata and
debug_info. -/
def responseDict (llmsResponse : String) (al : List String)
    (pl puid rawText : String) (fileSize : Nat) : List (String × JVal) :=
  [("response", .s llmsResponse),
   ("metadata", .obj (metadataDict al pl puid rawText)),
   ("debug_info", .obj [("received_allergies", .arr al),
     ("received_file_size", .n fileSize)])]

/-- What the /analyze endpoint produces: a 200 JSON body, an HTTPException
(404 or 500), or an exception escaping the handler (FastAPI turns it into a
500 as well, but it is not one the handler raised deliberately). -/
inductive AnalyzeResult where
  | uncaught (msg : String)
  | notFound (detail : String)
  | serverError (detail : String)
  | ok (body : List (String × JVal))

namespace MenuAnalysis

/-- Embeds analyze_menu of src/menu-analysis/src/main.py.  The image is
abstracted by its byte length and its OCR outcome (OCR runs only after the
credential check).  Empty platform or user id raises ValueError; a missing
or undecryptable or falsy credential is a 404; a generate_response exception
is a 500; otherwise the response dict is returned with status 200 — note
that an empty final completion is an ordinary 200 whose response field is the
empty string. -/
def analyze_menu (secret : String) (db : DB) (al : List String)
    (pl puid : String) (fileSize : Nat) (ocr : OcrOutcome) (p : LLMProvider) :
    AnalyzeResult :=
  if pl = "" ∨ puid = "" then
    .uncaught "Missing platform or platform_user_id in metadata"
  else
    match (get_api_key secret db pl puid).1 with
    | none => .notFound "No API key found."
    | some key =>
        if key = "" then .notFound "No API key found."
        else
          match ocr with
          | .invalidImage => .uncaught "cv2 error while preprocessing the image"
          | .text rawText =>
              match generate_response rawText al p with
              | .error e => .serverError ("Failed to generate response: " ++ e)
              | .ok llms => .ok (responseDict llms al pl puid rawText fileSize)

end MenuAnalysis

/-- A response of the menu-analysis service to one POST, as the telegram
adapter sees it: a 200 with a JSON body, or any other status code. -/
inductive SvcResponse where
  | ok (body : List (String × JVal))
  | err (code : Nat)

/-- The exceptions send_image_analyze raises: a non-200 status, or the
"No reply from LLM" error carrying the parsed result. -/
inductive TgSendError where
  | httpStatus (code : Nat)
  | noReply (result : List (String × JVal))

/-- dict.get(k, None) over the parsed JSON body. -/
def dictGet (d : List (String × JVal)) (k : String) : Option JVal :=
  (d.find? (fun p => p.1 = k)).map Prod.snd

/-- Python truthiness of a JSON value, for the `if not reply` test. -/
def JVal.truthy : JVal → Bool
  | .s v => v ≠ ""
  | .n v => v ≠ 0
  | .arr v => !v.isEmpty
  | .obj v => !v.isEmpty

namespace TelegramBot

/-- Embeds send_image_analyze of src/telegram-bot/src/send_anaylsis.py.  svc
maps the index of a POST of the analysis request to the response the service
gives it.  The source posts the same form twice: the first response is parsed
and discarded, the second overwrites it; a non-200 status at either post
raises (the httpStatus error).  The reply is then read from the key
llm_3_output of the final result; a missing or falsy value raises the
noReply error.  The second component counts the posts performed. -/
def send_image_analyze (svc : Nat → SvcResponse) :
    Except TgSendError JVal × Nat :=
  match svc 0 with
  | .err code => (.error (.httpStatus code), 1)
  | .ok _ =>
      match svc 1 with
      | .err code => (.error (.httpStatus code), 2)
      | .ok body =>
          match dictGet body "llm_3_output" with
          | none => (.error (.noReply body), 2)
          | some v =>
              if v.truthy then (.ok v, 2) else (.error (.noReply body), 2)

end TelegramBot

namespace Store

theorem findUser_congr_users (db1 db2 : DB) (pl puid : String)
    (h : db1.users = db2.users) :
    findUser db1 pl puid = findUser db2 pl puid := by
  unfold findUser
  rw [h]

theorem getOrCreateUser_of_found {db : DB} {pl puid : String} {uid : Nat}
    (h : findUser db pl puid = some uid) :
    getOrCreateUser db pl puid = (uid, db) := by
  unfold getOrCreateUser
  rw [h]

theorem findUser_getOrCreateUser (db : DB) (pl puid : String) :
    findUser (getOrCreateUser db pl puid).2 pl puid
      = some (getOrCreateUser db pl puid).1 := by
  unfold getOrCreateUser
  cases h : findUser db pl puid with
  | some uid => simpa using h
  | none =>
      unfold findUser at h ⊢
      have hnone : db.users.find? (fun u => u.platform = pl ∧ u.puid = puid) = none := by
        cases hf : db.users.find? (fun u => u.platform = pl ∧ u.puid = puid) with
        | none => rfl
        | some u => rw [hf] at h; simp at h
      simp only []
      rw [List.find?_append, hnone, Option.none_or]
      have hone : List.find? (fun u => decide (u.platform = pl ∧ u.puid = puid))
          [({ id := db.nextUserId, platform := pl, puid := puid } : UserRow)]
          = some { id := db.nextUserId, platform := pl, puid := puid } := by
        simp [List.find?]
      rw [hone]
      rfl

theorem users_getOrCreateUser_found {db : DB} {pl puid : String} {uid : Nat}
    (h : findUser db pl puid = some uid) :
    (getOrCreateUser db pl puid).2.users = db.users := by
  rw [getOrCreateUser_of_found h]

theorem find?_replace_eq {β : Type} (uid : Nat) (tok : β) (l : List (Nat × β))
    (h : (l.find? (fun p => p.1 = uid)).isSome) :
    (l.map (fun p => if p.1 = uid then (uid, tok) else p)).find?
        (fun p => p.1 = uid) = some (uid, tok) := by
  induction l with
  | nil => simp at h
  | cons q l ih =>
      by_cases hq : q.1 = uid
      · simp [hq, List.find?_cons_of_pos]
      · rw [List.find?_cons_of_neg _ (by simpa using hq)] at h
        simp only [List.map_cons, if_neg hq]
        rw [List.find?_cons_of_neg _ (by simpa using hq)]
        exact ih h

theorem find?_filter_ne_none {α β : Type} [DecidableEq α] (uid : α)
    (l : List (α × β)) :
    (l.filter (fun p => p.1 ≠ uid)).find? (fun p => p.1 = uid) = none := by
  rw [List.find?_eq_none]
  intro x hx
  have hmem := (List.mem_filter.mp hx).2
  simp only [decide_eq_true_eq] at hmem ⊢
  exact hmem

theorem find?_id_of_mem (l : List AllergyRow)
    (hnd : (l.map AllergyRow.id).Nodup) {a : AllergyRow} (ha : a ∈ l) :
    l.find? (fun x => x.id = a.id) = some a := by
  induction l with
  | nil => simp at ha
  | cons b l ih =>
      rw [List.map_cons, List.nodup_cons] at hnd
      rcases List.mem_cons.mp ha with h | h
      · subst h
        exact List.find?_cons_of_pos _ (by simp)
      · have hne : ¬ b.id = a.id := by
          intro he
          exact hnd.1 (by rw [he]; exact List.mem_map_of_mem AllergyRow.id h)
        rw [List.find?_cons_of_neg _ (by simpa using hne)]
        exact ih hnd.2 h

theorem users_addAllergyStep (uid : Nat) (db : DB) (n : String) :
    (addAllergyStep uid db n).users = db.users := by
  unfold addAllergyStep upsertAllergy linkUserAllergy
  cases h : (db.allergies.find? (fun a => a.name = n)).map AllergyRow.id <;>
    · dsimp only
      split <;> rfl

theorem WF_of_fields {db1 db2 : DB} (h : WF db1)
    (ha : db2.allergies = db1.allergies)
    (hn : db2.nextAllergyId = db1.nextAllergyId)
    (hu : db2.userAllergies = db1.userAllergies) : WF db2 :=
  ⟨by rw [ha, hn]; exact h.allergyIdLt,
   by rw [ha]; exact h.allergyIdNodup,
   by rw [hu, ha]; exact h.uaFK⟩

theorem WF_getOrCreateUser (db : DB) (pl puid : String) (h : WF db) :
    WF (getOrCreateUser db pl puid).2 := by
  unfold getOrCreateUser
  cases findUser db pl puid with
  | some uid => exact h
  | none => exact WF_of_fields h rfl rfl rfl

theorem WF_clearUserAllergies (db : DB) (uid : Nat) (h : WF db) :
    WF (clearUserAllergies db uid) := by
  refine ⟨h.allergyIdLt, h.allergyIdNodup, ?_⟩
  intro pr hpr
  exact h.uaFK pr (List.mem_of_mem_filter hpr)

theorem allergyNamesOf_clear (db : DB) (uid : Nat) :
    allergyNamesOf (clearUserAllergies db uid) uid = [] := by
  unfold allergyNamesOf clearUserAllergies
  rw [List.filterMap_eq_nil_iff]
  intro p hp
  have hne := (List.mem_filter.mp hp).2
  simp only [decide_eq_true_eq] at hne
  rw [if_neg hne]

theorem WF_linkUserAllergy (db : DB) (uid aid : Nat) (h : WF db)
    (hex : ∃ a ∈ db.allergies, a.id = aid) :
    WF (linkUserAllergy db uid aid) := by
  unfold linkUserAllergy
  split
  · exact h
  · refine ⟨h.allergyIdLt, h.allergyIdNodup, ?_⟩
    intro pr hpr
    rcases List.mem_append.mp hpr with hp | hp
    · exact h.uaFK pr hp
    · rw [List.mem_singleton] at hp
      subst hp
      exact hex

theorem upsert_found_row (db : DB) (n : String) (aid : Nat)
    (hf : (db.allergies.find? (fun a => a.name = n)).map AllergyRow.id
      = some aid) :
    ∃ row, db.allergies.find? (fun a => a.name = n) = some row ∧
      row.id = aid ∧ row ∈ db.allergies ∧ row.name = n := by
  cases hf0 : db.allergies.find? (fun a => a.name = n) with
  | none => rw [hf0] at hf; simp at hf
  | some row =>
      rw [hf0] at hf
      refine ⟨row, rfl, by simpa using hf, List.mem_of_find?_eq_some hf0, ?_⟩
      simpa using List.find?_some hf0

theorem WF_addAllergyStep (db : DB) (h : WF db) (uid : Nat) (n : String) :
    WF (addAllergyStep uid db n) := by
  unfold addAllergyStep upsertAllergy
  cases hf : (db.allergies.find? (fun a => a.name = n)).map AllergyRow.id with
  | some aid =>
      dsimp only
      obtain ⟨row, _, hid, hmem, _⟩ := upsert_found_row db n aid hf
      exact WF_linkUserAllergy db uid aid h ⟨row, hmem, hid⟩
  | none =>
      dsimp only
      have hWF2 : WF { db with
          allergies := db.allergies ++ [⟨db.nextAllergyId, n⟩],
          nextAllergyId := db.nextAllergyId + 1 } := by
        refine ⟨?_, ?_, ?_⟩
        · intro a ha
          show a.id < db.nextAllergyId + 1
          have ha2 : a ∈ db.allergies ++ [(⟨db.nextAllergyId, n⟩ : AllergyRow)] := ha
          rcases List.mem_append.mp ha2 with hm | hm
          · have := h.allergyIdLt a hm
            omega
          · rw [List.mem_singleton] at hm
            subst hm
            show db.nextAllergyId < db.nextAllergyId + 1
            omega
        · show (List.map AllergyRow.id
            (db.allergies ++ [(⟨db.nextAllergyId, n⟩ : AllergyRow)])).Nodup
          rw [List.map_append]
          refine List.Nodup.append h.allergyIdNodup (List.nodup_singleton _) ?_
          intro y hy1 hy2
          simp only [List.map_cons, List.map_nil, List.mem_singleton] at hy2
          obtain ⟨a, ham, haid⟩ := List.mem_map.mp hy1
          have := h.allergyIdLt a ham
          omega
        · intro pr hpr
          have hpr2 : pr ∈ db.userAllergies := hpr
          obtain ⟨a, ham, haid⟩ := h.uaFK pr hpr2
          exact ⟨a, List.mem_append_left _ ham, haid⟩
      exact WF_linkUserAllergy _ uid db.nextAllergyId hWF2
        ⟨⟨db.nextAllergyId, n⟩, List.mem_append_right _ (List.mem_singleton_self _), rfl⟩

theorem mem_allergyNames_addStep (db : DB) (h : WF db) (uid : Nat)
    (n x : String) :
    x ∈ allergyNamesOf (addAllergyStep uid db n) uid ↔
      x ∈ allergyNamesOf db uid ∨ x = n := by
  unfold addAllergyStep upsertAllergy
  cases hf : (db.allergies.find? (fun a => a.name = n)).map AllergyRow.id with
  | some aid =>
      dsimp only
      obtain ⟨row, _, hid, hmem, hname⟩ := upsert_found_row db n aid hf
      have hfind_id : db.allergies.find? (fun a => a.id = aid) = some row := by
        subst hid
        exact find?_id_of_mem db.allergies h.allergyIdNodup hmem
      unfold linkUserAllergy
      by_cases hpairmem : (uid, aid) ∈ db.userAllergies
      · rw [if_pos hpairmem]
        constructor
        · exact Or.inl
        · rintro (hx | hx)
          · exact hx
          · subst hx
            unfold allergyNamesOf
            rw [List.mem_filterMap]
            exact ⟨(uid, aid), hpairmem, by simp [hfind_id, hname]⟩
      · rw [if_neg hpairmem]
        unfold allergyNamesOf
        dsimp only
        rw [List.filterMap_append, List.mem_append]
        have hsing : List.filterMap (fun p : Nat × Nat =>
            if p.1 = uid then
              (db.allergies.find? (fun a => a.id = p.2)).map AllergyRow.name
            else none) [(uid, aid)] = [n] := by
          simp [List.filterMap, hfind_id, hname]
        rw [hsing]
        simp
  | none =>
      dsimp only
      have hfresh_ne : ¬ ((uid, db.nextAllergyId) ∈ db.userAllergies) := by
        intro hmem
        obtain ⟨a, ham, haid⟩ := h.uaFK _ hmem
        have haid2 : a.id = db.nextAllergyId := haid
        have := h.allergyIdLt a ham
        omega
      unfold linkUserAllergy
      dsimp only
      rw [if_neg hfresh_ne]
      unfold allergyNamesOf
      dsimp only
      rw [List.filterMap_append, List.mem_append]
      have hold : List.filterMap (fun p : Nat × Nat =>
          if p.1 = uid then
            ((db.allergies ++ [(⟨db.nextAllergyId, n⟩ : AllergyRow)]).find?
              (fun a : AllergyRow => a.id = p.2)).map AllergyRow.name
          else none) db.userAllergies
          = allergyNamesOf db uid := by
        unfold allergyNamesOf
        apply List.filterMap_congr
        intro p hp
        by_cases hpu : p.1 = uid
        · rw [if_pos hpu, if_pos hpu]
          obtain ⟨a, ham, haid⟩ := h.uaFK p hp
          cases hfa : db.allergies.find? (fun q => q.id = p.2) with
          | none =>
              exfalso
              have := List.find?_eq_none.mp hfa a ham
              simp [haid] at this
          | some a2 =>
              rw [List.find?_append, hfa, Option.or_some]
        · rw [if_neg hpu, if_neg hpu]
      have hnew : List.filterMap (fun p : Nat × Nat =>
          if p.1 = uid then
            ((db.allergies ++ [(⟨db.nextAllergyId, n⟩ : AllergyRow)]).find?
              (fun a : AllergyRow => a.id = p.2)).map AllergyRow.name
          else none) [(uid, db.nextAllergyId)] = [n] := by
        have hfa : db.allergies.find?
            (fun q : AllergyRow => q.id = db.nextAllergyId) = none := by
          rw [List.find?_eq_none]
          intro a ham
          have := h.allergyIdLt a ham
          simp only [decide_eq_true_eq]
          omega
        simp [List.filterMap_cons, List.find?_append, hfa, Option.none_or,
          List.find?]
      rw [hold, hnew]
      simp [allergyNamesOf]

theorem mem_allergyNames_foldl (uid : Nat) (names : List String) (db : DB)
    (h : WF db) (x : String) :
    x ∈ allergyNamesOf (names.foldl (addAllergyStep uid) db) uid ↔
      x ∈ allergyNamesOf db uid ∨ x ∈ names := by
  induction names generalizing db with
  | nil => simp
  | cons n ns ih =>
      rw [List.foldl_cons]
      rw [ih (addAllergyStep uid db n) (WF_addAllergyStep db h uid n)]
      rw [mem_allergyNames_addStep db h uid n x]
      simp only [List.mem_cons]
      tauto

theorem users_foldl_addAllergyStep (uid : Nat) (names : List String)
    (db : DB) :
    (names.foldl (addAllergyStep uid) db).users = db.users := by
  induction names generalizing db with
  | nil => rfl
  | cons n ns ih => rw [List.foldl_cons, ih, users_addAllergyStep]

/-- The replace-then-read membership property of the store. -/
theorem mem_get_after_update (db : DB) (pl puid : String) (L : List String)
    (h : WF db) (x : String) :
    (x ∈ (get_allergies (update_allergies db pl puid L) pl puid).1 ↔
      x ∈ L) := by
  rcases hg : getOrCreateUser db pl puid with ⟨uid, db1⟩
  have hWF1 : WF db1 := by
    have hw := WF_getOrCreateUser db pl puid h
    rw [hg] at hw
    exact hw
  have hfind1 : findUser db1 pl puid = some uid := by
    have hw := findUser_getOrCreateUser db pl puid
    rw [hg] at hw
    exact hw
  unfold update_allergies
  rw [hg]
  dsimp only
  have hWF2 : WF (clearUserAllergies db1 uid) :=
    WF_clearUserAllergies db1 uid hWF1
  have husers3 : (L.foldl (addAllergyStep uid)
      (clearUserAllergies db1 uid)).users = db1.users := by
    rw [users_foldl_addAllergyStep]
    rfl
  have hfind3 : findUser (L.foldl (addAllergyStep uid)
      (clearUserAllergies db1 uid)) pl puid = some uid := by
    rw [findUser_congr_users _ db1 pl puid husers3]
    exact hfind1
  unfold get_allergies
  rw [getOrCreateUser_of_found hfind3]
  dsimp only
  rw [mem_allergyNames_foldl uid L (clearUserAllergies db1 uid) hWF2 x]
  rw [allergyNamesOf_clear db1 uid]
  simp

/-- Setting a credential and reading it back yields the plaintext. -/
theorem get_after_set_some (secret : String) (db : DB) (pl puid k : String) :
    (get_api_key secret (set_api_key secret db pl puid (some k)) pl puid).1
      = some k := by
  rcases hg : getOrCreateUser db pl puid with ⟨uid, db1⟩
  have hfind0 := findUser_getOrCreateUser db pl puid
  rw [hg] at hfind0
  obtain ⟨us, nu, al, na, ua, ak⟩ := db1
  have hfind : (us.find? (fun u => u.platform = pl ∧ u.puid = puid)).map
      UserRow.id = some uid := hfind0
  unfold set_api_key
  rw [hg]
  unfold get_api_key getOrCreateUser findUser
  dsimp only
  by_cases hk : (ak.find? (fun p => p.1 = uid)).isSome
  · rw [if_pos hk, hfind]
    dsimp only
    rw [find?_replace_eq uid (Vault.encrypt_key secret k) ak hk]
    simp [Vault.decrypt_key, Vault.encrypt_key]
  · rw [if_neg hk, hfind]
    dsimp only
    have hnone : ak.find? (fun p => p.1 = uid) = none := by
      cases hf : ak.find? (fun p => p.1 = uid) with
      | none => rfl
      | some q => rw [hf] at hk; simp at hk
    rw [List.find?_append, hnone, Option.none_or]
    simp [List.find?, Vault.decrypt_key, Vault.encrypt_key]

/-- Clearing a credential and reading it back yields none. -/
theorem get_after_set_none (secret : String) (db : DB) (pl puid : String) :
    (get_api_key secret (set_api_key secret db pl puid none) pl puid).1
      = none := by
  rcases hg : getOrCreateUser db pl puid with ⟨uid, db1⟩
  have hfind0 := findUser_getOrCreateUser db pl puid
  rw [hg] at hfind0
  obtain ⟨us, nu, al, na, ua, ak⟩ := db1
  have hfind : (us.find? (fun u => u.platform = pl ∧ u.puid = puid)).map
      UserRow.id = some uid := hfind0
  unfold set_api_key
  rw [hg]
  unfold get_api_key getOrCreateUser findUser
  dsimp only
  rw [hfind]
  dsimp only
  rw [find?_filter_ne_none uid ak]
  rfl

end Store

/-- Claim C3: for every user and key string, setting the credential and then
reading it back returns the key (encrypt-then-upsert followed by
lookup-then-decrypt round-trips), and setting the credential to None followed
by a read returns none (the row is deleted). -/
theorem claim_C3 (secret : String) (db : DB) (puid k : String) :
    (LineBot.get_api_key secret
        (LineBot.set_api_key secret db puid (some k)) puid).1 = some k ∧
      (LineBot.get_api_key secret
        (LineBot.set_api_key secret db puid none) puid).1 = none :=
  ⟨Store.get_after_set_some secret db LineBot.PLATFORM puid k,
   Store.get_after_set_none secret db LineBot.PLATFORM puid⟩

/-- Claim C1: for every non-empty string k, decrypting the encryption of k
under the same deployment secret returns k; and every token that is not a
valid ciphertext under the derived key decrypts to none (the soft failure the
try/except in _decrypt_key produces), never an exception (the embedding is a
total function into Option). -/
theorem claim_C1 (secret k : String) (c : Fernet.Token)
    (hk : k ≠ "") (hc : ∀ p, c ≠ Vault.encrypt_key secret p) :
    Vault.decrypt_key secret (Vault.encrypt_key secret k) = some k ∧
      Vault.decrypt_key secret c = none := by
  constructor
  · simp [Vault.decrypt_key, Vault.encrypt_key]
  · unfold Vault.decrypt_key
    split
    · rename_i h
      exact absurd (by cases c; simp_all [Vault.encrypt_key]) (hc c.payload)
    · rfl

/-- Concrete instance of claim C1: the round trip at secret "s" and key "k",
and the rejection of a token whose mac cannot have been produced under the
derived key. -/
theorem claim_C1_witness :
    ("k" : String) ≠ "" ∧
      Vault.decrypt_key "s" (Vault.encrypt_key "s" "k") = some "k" ∧
      Vault.decrypt_key "s" ⟨[], "x"⟩ = none := by
  have hmac : Fernet.deriveKey "s" = [115] := by decide
  have h := claim_C1 "s" "k" ⟨[], "x"⟩ (by decide) (fun p hp => by
    have hm : (Fernet.Token.mk [] "x").mac = (Vault.encrypt_key "s" p).mac := by
      rw [hp]
    rw [Vault.encrypt_key] at hm
    rw [hmac] at hm
    simp at hm)
  exact ⟨by decide, h⟩

theorem Store.users_getOrCreateUser_none (db : DB) (pl puid : String)
    (h : Store.findUser db pl puid = none) :
    (Store.getOrCreateUser db pl puid).2.users
      = db.users ++ [⟨db.nextUserId, pl, puid⟩] := by
  unfold Store.getOrCreateUser
  rw [h]

theorem Store.get_api_key_snd (secret : String) (db : DB) (pl puid : String) :
    (Store.get_api_key secret db pl puid).2
      = (Store.getOrCreateUser db pl puid).2 := by
  rcases hg : Store.getOrCreateUser db pl puid with ⟨uid, db1⟩
  unfold Store.get_api_key
  rw [hg]
  dsimp only
  cases (db1.apiKeys.find? (fun p => p.1 = uid)).map Prod.snd <;> rfl

theorem Store.get_allergies_snd (db : DB) (pl puid : String) :
    (Store.get_allergies db pl puid).2
      = (Store.getOrCreateUser db pl puid).2 := rfl

/-- Claim C2: for every user and list of names L, replacing the allergy list
with L and reading it back gives exactly the set of elements of L
(order-insensitive, duplicates collapsed by the association table); the empty
list leaves the user with no allergies.  The hypothesis is the store
invariant the schema maintains (serial ids, unique ids, foreign keys). -/
theorem claim_C2 (db : DB) (puid : String) (L : List String)
    (h : Store.WF db) (x : String) :
    x ∈ (LineBot.get_allergies (LineBot.update_allergies db puid L) puid).1 ↔
      x ∈ L :=
  Store.mem_get_after_update db LineBot.PLATFORM puid L h x

/-- Concrete instance of claim C2 on the empty database with a duplicated
input list. -/
theorem claim_C2_witness :
    Store.WF emptyDB ∧
      ("b" ∈ (LineBot.get_allergies
          (LineBot.update_allergies emptyDB "u1" ["a", "b", "a"]) "u1").1 ↔
        "b" ∈ (["a", "b", "a"] : List String)) := by
  have hwf : Store.WF emptyDB :=
    ⟨by intro a ha; simp [emptyDB] at ha,
     by simp [emptyDB],
     by intro pr hpr; simp [emptyDB] at hpr⟩
  exact ⟨hwf, claim_C2 emptyDB "u1" ["a", "b", "a"] hwf "b"⟩

/-- Claim C10: in the line-bot store, the read operations get_allergies and
get_api_key insert a users row for an unknown (platform, platform_user_id) as
a side effect of their get-or-create preamble, whereas the menu-analysis
get_api_key returns none for an unknown user and leaves the database
untouched. -/
theorem claim_C10 (secret : String) (db db2 : DB) (puid pl2 puid2 : String)
    (h : Store.findUser db "line" puid = none)
    (h2 : Store.findUser db2 pl2 puid2 = none) :
    (LineBot.get_allergies db puid).2.users
        = db.users ++ [⟨db.nextUserId, "line", puid⟩] ∧
      (LineBot.get_api_key secret db puid).2.users
        = db.users ++ [⟨db.nextUserId, "line", puid⟩] ∧
      MenuAnalysis.get_api_key secret db2 pl2 puid2 = (none, db2) := by
  refine ⟨?_, ?_, ?_⟩
  · show (Store.get_allergies db LineBot.PLATFORM puid).2.users = _
    rw [Store.get_allergies_snd]
    exact Store.users_getOrCreateUser_none db LineBot.PLATFORM puid h
  · show (Store.get_api_key secret db LineBot.PLATFORM puid).2.users = _
    rw [Store.get_api_key_snd]
    exact Store.users_getOrCreateUser_none db LineBot.PLATFORM puid h
  · unfold MenuAnalysis.get_api_key MenuAnalysis._get_user
    rw [h2]

/-- Concrete instance of claim C10 on the empty database. -/
theorem claim_C10_witness :
    (Store.findUser emptyDB "line" "u1" = none ∧
      Store.findUser emptyDB "telegram" "u2" = none) ∧
      (LineBot.get_allergies emptyDB "u1").2.users
        = emptyDB.users ++ [⟨emptyDB.nextUserId, "line", "u1"⟩] ∧
      (LineBot.get_api_key "s" emptyDB "u1").2.users
        = emptyDB.users ++ [⟨emptyDB.nextUserId, "line", "u1"⟩] ∧
      MenuAnalysis.get_api_key "s" emptyDB "telegram" "u2"
        = (none, emptyDB) := by
  refine ⟨⟨by decide, by decide⟩, ?_⟩
  exact claim_C10 "s" emptyDB emptyDB "u1" "telegram" "u2" (by decide) (by decide)

theorem statesLookup_pop_self (m : List (String × String)) (u : String) :
    statesLookup (statesPop m u) u = none := by
  unfold statesLookup statesPop
  rw [Store.find?_filter_ne_none u m]
  rfl

theorem nodup_statesPop (m : List (String × String)) (u : String)
    (h : (m.map Prod.fst).Nodup) : ((statesPop m u).map Prod.fst).Nodup :=
  List.Nodup.sublist (List.Sublist.map Prod.fst (List.filter_sublist m)) h

theorem nodup_statesInsert (m : List (String × String)) (k v : String)
    (h : (m.map Prod.fst).Nodup) :
    ((statesInsert m k v).map Prod.fst).Nodup := by
  unfold statesInsert
  split
  · have hfst : (m.map (fun p => if p.1 = k then (k, v) else p)).map Prod.fst
        = m.map Prod.fst := by
      rw [List.map_map]
      apply List.map_congr_left
      intro p hp
      by_cases hpk : p.1 = k
      · simp only [Function.comp, if_pos hpk]
        exact hpk.symm
      · simp only [Function.comp, if_neg hpk]
    rw [hfst]
    exact h
  · rename_i hnone
    have hfind : m.find? (fun p => p.1 = k) = none := by
      cases hf : m.find? (fun p => p.1 = k) with
      | none => rfl
      | some q => rw [hf] at hnone; simp at hnone
    rw [List.map_append]
    simp only [List.map_cons, List.map_nil]
    refine List.Nodup.append h (List.nodup_singleton _) ?_
    intro y hy1 hy2
    rw [List.mem_singleton] at hy2
    subst hy2
    obtain ⟨p, hpm, hpf⟩ := List.mem_map.mp hy1
    have hnp := List.find?_eq_none.mp hfind p hpm
    simp [hpf] at hnp

/-- Claim C7: the conversation-state map keeps at most one pending dialog tag
per user (the dict key uniqueness is preserved by every handler), the pending
tag is popped by the next text message from that user regardless of its
content or outcome, and follow and unfollow events clear the pending tag. -/
theorem claim_C7 (secret : String) (st : BotSt) (u rawText tag : String) :
    ((st.userStates.map Prod.fst).Nodup →
        (((handle_text_message secret st u rawText).1.userStates.map
            Prod.fst).Nodup ∧
          ((handle_follow secret st u).userStates.map Prod.fst).Nodup ∧
          ((handle_unfollow st u).userStates.map Prod.fst).Nodup)) ∧
      (statesLookup st.userStates u = some tag →
        statesLookup (handle_text_message secret st u rawText).1.userStates u
          = none) ∧
      statesLookup (handle_follow secret st u).userStates u = none ∧
      statesLookup (handle_unfollow st u).userStates u = none := by
  refine ⟨?_, ?_, ?_, ?_⟩
  · intro h
    refine ⟨?_, nodup_statesPop _ _ h, nodup_statesPop _ _ h⟩
    unfold handle_text_message
    cases hl : statesLookup st.userStates u with
    | some s =>
        dsimp only
        split_ifs <;> exact nodup_statesPop _ _ h
    | none =>
        dsimp only
        split_ifs <;>
          first
            | exact nodup_statesInsert _ _ _ h
            | exact h
  · intro hp
    unfold handle_text_message
    rw [hp]
    dsimp only
    split_ifs <;> exact statesLookup_pop_self _ _
  · exact statesLookup_pop_self _ _
  · exact statesLookup_pop_self _ _

/-- Concrete instance of claim C7: a user with a pending setallergy tag in a
well-formed map sends an arbitrary text; the tag is gone afterwards, and the
follow and unfollow handlers clear it as well. -/
theorem claim_C7_witness :
    ((([("u1", "setallergy")] : List (String × String)).map Prod.fst).Nodup ∧
        statesLookup [("u1", "setallergy")] "u1" = some "setallergy") ∧
      ((handle_text_message "s" ⟨emptyDB, [("u1", "setallergy")]⟩ "u1"
          "hello").1.userStates.map Prod.fst).Nodup ∧
      statesLookup (handle_text_message "s" ⟨emptyDB, [("u1", "setallergy")]⟩
          "u1" "hello").1.userStates "u1" = none ∧
      statesLookup (handle_follow "s" ⟨emptyDB, [("u1", "setallergy")]⟩
          "u1").userStates "u1" = none ∧
      statesLookup (handle_unfollow ⟨emptyDB, [("u1", "setallergy")]⟩
          "u1").userStates "u1" = none := by
  have h := claim_C7 "s" ⟨emptyDB, [("u1", "setallergy")]⟩ "u1" "hello"
    "setallergy"
  exact ⟨⟨by decide, by decide⟩, (h.1 (by decide)).1, h.2.1 (by decide),
    h.2.2.1, h.2.2.2⟩

theorem Store.get_allergies_idem (db : DB) (pl puid : String) :
    (Store.get_allergies (Store.get_allergies db pl puid).2 pl puid).1
      = (Store.get_allergies db pl puid).1 := by
  rcases hg : Store.getOrCreateUser db pl puid with ⟨uid, db1⟩
  have hfind : Store.findUser db1 pl puid = some uid := by
    have h := Store.findUser_getOrCreateUser db pl puid
    rw [hg] at h
    exact h
  unfold Store.get_allergies
  rw [hg]
  dsimp only
  rw [Store.getOrCreateUser_of_found hfind]

/-- Counterexample to claim C4 as stated: starting from Idle, after
/setallergy the input abc (no commas) is not re-prompted and the user does
not remain in the allergy dialog — the pending tag is popped (the next text
is interpreted as an ordinary message), the input is stored as the
single-element allergy list, and the reply is the success message. -/
theorem claim_C4_counterexample :
    statesLookup (handle_text_message "s" (handle_text_message "s"
        ⟨emptyDB, []⟩ "u1" "/setallergy").1 "u1" "abc").1.userStates "u1"
      = none ∧
    (LineBot.get_allergies (handle_text_message "s" (handle_text_message "s"
        ⟨emptyDB, []⟩ "u1" "/setallergy").1 "u1" "abc").1.db "u1").1
      = ["abc"] ∧
    (handle_text_message "s" (handle_text_message "s" ⟨emptyDB, []⟩ "u1"
        "/setallergy").1 "u1" "abc").2 = allergySuccessMsg ["abc"] := by
  refine ⟨by decide, by decide, by decide⟩

/-- Claim C4 as amended: with the allergy dialog pending, any non-command
input — including a comma-less one such as abc — is accepted by both
adapters: the line bot stores the parsed list, pops the tag (returning the
user to Idle) and replies with the success message, and the telegram receiver
stores the parsed list and ends the conversation.  Only an all-whitespace
input is treated as malformed, and only by the telegram adapter, which then
re-prompts and stays in the allergy dialog with the stored list unchanged. -/
theorem claim_C4_amended (secret : String) (st : BotSt) (db2 : DB)
    (u u2 t s : String)
    (hWF : Store.WF st.db) (hWF2 : Store.WF db2)
    (htag : statesLookup st.userStates u = some "setallergy")
    (hc1 : PyStr.lower (PyStr.strip t) ≠ "/cancel")
    (hc2 : PyStr.lower (PyStr.strip t) ≠ "/clear")
    (ht : PyStr.strip t ≠ "") (hs : PyStr.strip s = "") :
    statesLookup (handle_text_message secret st u t).1.userStates u = none ∧
      (handle_text_message secret st u t).2
        = allergySuccessMsg (parseAllergies (PyStr.strip t)) ∧
      (∀ x, x ∈ (LineBot.get_allergies
          (handle_text_message secret st u t).1.db u).1 ↔
        x ∈ parseAllergies (PyStr.strip t)) ∧
      (TelegramBot.setallergy_receive db2 u2 t).2.2
        = TelegramBot.ConvState.endConv ∧
      (∀ x, x ∈ (TelegramBot.get_allergies
          (TelegramBot.setallergy_receive db2 u2 t).1 u2).1 ↔
        x ∈ parseAllergies t) ∧
      (TelegramBot.setallergy_receive db2 u2 s).2.2
        = TelegramBot.ConvState.setAllergyInput ∧
      (TelegramBot.setallergy_receive db2 u2 s).2.1
        = TelegramBot.reSubmitPrompt (TelegramBot.get_allergies db2 u2).1 ∧
      (TelegramBot.get_allergies (TelegramBot.setallergy_receive db2 u2 s).1
          u2).1 = (TelegramBot.get_allergies db2 u2).1 := by
  have hline : handle_text_message secret st u t
      = (⟨LineBot.update_allergies st.db u (parseAllergies (PyStr.strip t)),
          statesPop st.userStates u⟩,
         allergySuccessMsg (parseAllergies (PyStr.strip t))) := by
    unfold handle_text_message
    rw [htag]
    dsimp only
    rw [if_neg (by decide : ¬ ("setallergy" : String) = "setapikey")]
    rw [if_pos rfl, if_neg hc1, if_neg hc2]
  have htg : TelegramBot.handle_input_allergy_format t
      = some (parseAllergies t) := by
    unfold TelegramBot.handle_input_allergy_format
    rw [if_pos ht]
    rfl
  have hrecv : TelegramBot.setallergy_receive db2 u2 t
      = (TelegramBot.update_allergies db2 u2 (parseAllergies t),
         TelegramBot.tgAllergySuccessMsg (parseAllergies t),
         TelegramBot.ConvState.endConv) := by
    unfold TelegramBot.setallergy_receive
    rw [htg]
  have htg2 : TelegramBot.handle_input_allergy_format s = none := by
    unfold TelegramBot.handle_input_allergy_format
    rw [if_neg (fun hcon => hcon hs)]
  have hrecv2 : TelegramBot.setallergy_receive db2 u2 s
      = ((TelegramBot.get_allergies db2 u2).2,
         TelegramBot.reSubmitPrompt (TelegramBot.get_allergies db2 u2).1,
         TelegramBot.ConvState.setAllergyInput) := by
    unfold TelegramBot.setallergy_receive
    rw [htg2]
  refine ⟨?_, ?_, ?_, ?_, ?_, ?_, ?_, ?_⟩
  · rw [hline]
    exact statesLookup_pop_self st.userStates u
  · rw [hline]
  · rw [hline]
    intro x
    exact Store.mem_get_after_update st.db LineBot.PLATFORM u
      (parseAllergies (PyStr.strip t)) hWF x
  · rw [hrecv]
  · rw [hrecv]
    intro x
    exact Store.mem_get_after_update db2 TelegramBot.PLATFORM u2
      (parseAllergies t) hWF2 x
  · rw [hrecv2]
  · rw [hrecv2]
  · rw [hrecv2]
    exact Store.get_allergies_idem db2 TelegramBot.PLATFORM u2

/-- Concrete instance of the amended claim C4 at the inputs of the original
claim: pending setallergy tag, input abc, and (for the telegram malformed
path) a whitespace-only input. -/
theorem claim_C4_amended_witness :
    (Store.WF emptyDB ∧
      statesLookup [("u1", "setallergy")] "u1" = some "setallergy" ∧
      PyStr.lower (PyStr.strip "abc") ≠ "/cancel" ∧
      PyStr.lower (PyStr.strip "abc") ≠ "/clear" ∧
      PyStr.strip "abc" ≠ "" ∧ PyStr.strip "  " = "") ∧
      statesLookup (handle_text_message "s" ⟨emptyDB, [("u1", "setallergy")]⟩
          "u1" "abc").1.userStates "u1" = none ∧
      ("abc" ∈ (LineBot.get_allergies (handle_text_message "s"
          ⟨emptyDB, [("u1", "setallergy")]⟩ "u1" "abc").1.db "u1").1 ↔
        "abc" ∈ parseAllergies (PyStr.strip "abc")) ∧
      (TelegramBot.setallergy_receive emptyDB "u2" "abc").2.2
        = TelegramBot.ConvState.endConv ∧
      (TelegramBot.setallergy_receive emptyDB "u2" "  ").2.2
        = TelegramBot.ConvState.setAllergyInput := by
  have hwf : Store.WF emptyDB :=
    ⟨by intro a ha; simp [emptyDB] at ha,
     by simp [emptyDB],
     by intro pr hpr; simp [emptyDB] at hpr⟩
  have h := claim_C4_amended "s" ⟨emptyDB, [("u1", "setallergy")]⟩ emptyDB
    "u1" "u2" "abc" "  " hwf hwf (by decide) (by decide) (by decide)
    (by decide) (by decide)
  exact ⟨⟨hwf, by decide, by decide, by decide, by decide, by decide⟩,
    h.1, h.2.2.1 "abc", h.2.2.2.1, h.2.2.2.2.2.1⟩

/-- Claim C5: an image event from a user with no usable credential makes the
handler reply with the set-api-key prompt and stop: the line bot performs no
image fetch, no call into the analysis service (where OCR and the LLM stages
run) and no follow-up push; the telegram bot has already downloaded the photo
but likewise performs no analysis call and no follow-up. -/
theorem claim_C5 (secret : String) (db db2 : DB) (u u2 : String)
    (ar ar2 : List String → String)
    (h1 : (LineBot.get_api_key secret db u).1 = none)
    (h2 : (TelegramBot.get_api_key secret db2 u2).1 = none) :
    _process_image_message secret db u ar
        = ((LineBot.get_api_key secret db u).2, [BotAction.reply noKeyPrompt])
      ∧ TelegramBot.handle_image_message secret db2 u2 ar2
        = ((TelegramBot.get_api_key secret db2 u2).2,
            [BotAction.fetchImage, BotAction.reply noKeyPrompt])
      ∧ BotAction.analyzeCall ∉ (_process_image_message secret db u ar).2
      ∧ (∀ m, BotAction.push m ∉ (_process_image_message secret db u ar).2)
      ∧ BotAction.analyzeCall
          ∉ (TelegramBot.handle_image_message secret db2 u2 ar2).2
      ∧ (∀ m, BotAction.push m
          ∉ (TelegramBot.handle_image_message secret db2 u2 ar2).2) := by
  have hl : _process_image_message secret db u ar
      = ((LineBot.get_api_key secret db u).2,
          [BotAction.reply noKeyPrompt]) := by
    unfold _process_image_message
    dsimp only
    rw [h1]
  have htg : TelegramBot.handle_image_message secret db2 u2 ar2
      = ((TelegramBot.get_api_key secret db2 u2).2,
          [BotAction.fetchImage, BotAction.reply noKeyPrompt]) := by
    unfold TelegramBot.handle_image_message
    dsimp only
    rw [h2]
  refine ⟨hl, htg, ?_, ?_, ?_, ?_⟩
  · rw [hl]; simp
  · intro m; rw [hl]; simp
  · rw [htg]; simp
  · intro m; rw [htg]; simp

/-- Concrete instance of claim C5 on the empty database (an unknown user has
no credential row, so getCredential yields none). -/
theorem claim_C5_witness :
    ((LineBot.get_api_key "s" emptyDB "u1").1 = none ∧
      (TelegramBot.get_api_key "s" emptyDB "u2").1 = none) ∧
      _process_image_message "s" emptyDB "u1" (fun _ => "r")
        = ((LineBot.get_api_key "s" emptyDB "u1").2,
            [BotAction.reply noKeyPrompt]) ∧
      TelegramBot.handle_image_message "s" emptyDB "u2" (fun _ => "r")
        = ((TelegramBot.get_api_key "s" emptyDB "u2").2,
            [BotAction.fetchImage, BotAction.reply noKeyPrompt]) ∧
      BotAction.analyzeCall
        ∉ (_process_image_message "s" emptyDB "u1" (fun _ => "r")).2 := by
  have h := claim_C5 "s" emptyDB emptyDB "u1" "u2" (fun _ => "r")
    (fun _ => "r") (by decide) (by decide)
  exact ⟨⟨by decide, by decide⟩, h.1, h.2.1, h.2.2.1⟩

/-- Claim C8: for every byte sequence the codec cannot decode, extract_raw_text
signals the invalid-image error to its caller (cv2.imdecode yields None and
the subsequent cv2.resize raises) rather than returning empty text; for every
decodable image it returns the text recognized on the
upscale-grayscale-binarize preprocessed image. -/
theorem claim_C8 {Img : Type} (cv : CvOps Img) (tess : Img → String)
    (bytes : List Nat) :
    (cv.imdecode bytes = none →
        extract_raw_text cv tess bytes = OcrOutcome.invalidImage) ∧
      (∀ img, cv.imdecode bytes = some img →
        extract_raw_text cv tess bytes
          = OcrOutcome.text
              (tess (cv.otsuBinarize (cv.bgrToGray (cv.resize2xCubic img))))) := by
  constructor
  · intro h
    unfold extract_raw_text
    rw [h]
  · intro img h
    unfold extract_raw_text
    rw [h]
    rfl

/-- Concrete instance of claim C8 with a codec that rejects every input and a
codec that decodes everything to a fixed image. -/
theorem claim_C8_witness :
    ((CvOps.mk (fun _ => (none : Option Nat)) id id id).imdecode [0] = none ∧
      extract_raw_text (CvOps.mk (fun _ => (none : Option Nat)) id id id)
        (fun _ => "t") [0] = OcrOutcome.invalidImage) ∧
      ((CvOps.mk (fun _ => some (0 : Nat)) id id id).imdecode [0] = some 0 ∧
        extract_raw_text (CvOps.mk (fun _ => some (0 : Nat)) id id id)
          (fun _ => "t") [0] = OcrOutcome.text "t") := by
  constructor
  · exact ⟨rfl, (claim_C8 (CvOps.mk (fun _ => none) id id id)
      (fun _ => "t") [0]).1 rfl⟩
  · exact ⟨rfl, (claim_C8 (CvOps.mk (fun _ => some 0) id id id)
      (fun _ => "t") [0]).2 0 rfl⟩

/-- Counterexample to the stage 3 part of claim C6: an empty (null) terminal
completion is not a pipeline-level error — call_llm3 degrades it to "" like
the other stages, and /analyze returns an ordinary 200 whose response field
is the empty string. -/
theorem claim_C6_counterexample :
    MenuAnalysis.analyze_menu "s" (LineBot.set_api_key "s" emptyDB "u1"
        (some "k")) ["花生"] "line" "u1" 3 (OcrOutcome.text "menu")
        (fun _ _ => LLMResult.completion none)
      = AnalyzeResult.ok (responseDict "" ["花生"] "line" "u1" "menu" 3) := by
  rfl

/-- Claim C6 as amended: an empty or null completion from any stage —
including stage 3 — degrades to the empty string without aborting the
pipeline (the empty stage 1 and 2 outputs are passed on as the next stage
inputs); a provider exception at stage 3 propagates as the pipeline-level
error that /analyze maps to a 500; but an empty terminal completion is not a
failure — it is returned as a normal 200 whose response is the empty
string. -/
theorem claim_C6_amended (m : String) (al : List String) (p : LLMProvider)
    (secret : String) (db : DB) (pl puid : String) (fs : Nat) (key : String)
    (hpl : pl ≠ "") (hpuid : puid ≠ "")
    (hkey : (MenuAnalysis.get_api_key secret db pl puid).1 = some key)
    (hkne : key ≠ "")
    (h1 : p 1 m = LLMResult.completion none)
    (h2 : p 2 "" = LLMResult.completion none) :
    generate_response m al p = call_llm3 "" al p ∧
      (p 3 "" = LLMResult.raise →
        MenuAnalysis.analyze_menu secret db al pl puid fs
            (OcrOutcome.text m) p
          = AnalyzeResult.serverError
              "Failed to generate response: LLM provider error in stage 3") ∧
      (p 3 "" = LLMResult.completion none →
        MenuAnalysis.analyze_menu secret db al pl puid fs
            (OcrOutcome.text m) p
          = AnalyzeResult.ok (responseDict "" al pl puid m fs)) := by
  have hgen : generate_response m al p = call_llm3 "" al p := by
    unfold generate_response call_llm1 call_llm2
    rw [h1]
    dsimp only [respTextOrEmpty]
    rw [h2]
  have hshared : ∀ res, generate_response m al p = res →
      MenuAnalysis.analyze_menu secret db al pl puid fs (OcrOutcome.text m) p
        = (match res with
            | Except.error e =>
                AnalyzeResult.serverError ("Failed to generate response: " ++ e)
            | Except.ok llms =>
                AnalyzeResult.ok (responseDict llms al pl puid m fs)) := by
    intro res hres
    unfold MenuAnalysis.analyze_menu
    rw [if_neg (by simp [hpl, hpuid]), hkey]
    dsimp only
    rw [if_neg hkne, hres]
  refine ⟨hgen, ?_, ?_⟩
  · intro h3
    have hc3 : generate_response m al p
        = Except.error "LLM provider error in stage 3" := by
      rw [hgen]
      unfold call_llm3
      rw [h3]
    exact hshared _ hc3
  · intro h3
    have hc3 : generate_response m al p = Except.ok "" := by
      rw [hgen]
      unfold call_llm3
      rw [h3]
      rfl
    exact hshared _ hc3

/-- Concrete instance of the amended claim C6: one provider whose stages all
return null completions (the pipeline answers 200 with an empty response) and
one that raises at stage 3 (the pipeline answers 500). -/
theorem claim_C6_amended_witness :
    (("line" : String) ≠ "" ∧ ("u1" : String) ≠ "" ∧
      (MenuAnalysis.get_api_key "s" (LineBot.set_api_key "s" emptyDB "u1"
          (some "k")) "line" "u1").1 = some "k" ∧ ("k" : String) ≠ "") ∧
      MenuAnalysis.analyze_menu "s" (LineBot.set_api_key "s" emptyDB "u1"
          (some "k")) [] "line" "u1" 3 (OcrOutcome.text "menu")
          (fun _ _ => LLMResult.completion none)
        = AnalyzeResult.ok (responseDict "" [] "line" "u1" "menu" 3) ∧
      MenuAnalysis.analyze_menu "s" (LineBot.set_api_key "s" emptyDB "u1"
          (some "k")) [] "line" "u1" 3 (OcrOutcome.text "menu")
          (fun stage _ => if stage = 3 then LLMResult.raise
            else LLMResult.completion none)
        = AnalyzeResult.serverError
            "Failed to generate response: LLM provider error in stage 3" := by
  refine ⟨⟨by decide, by decide, by decide, by decide⟩, ?_, ?_⟩
  · exact (claim_C6_amended "menu" [] (fun _ _ => LLMResult.completion none)
      "s" (LineBot.set_api_key "s" emptyDB "u1" (some "k")) "line" "u1" 3 "k"
      (by decide) (by decide) (by decide) (by decide) rfl rfl).2.2 rfl
  · exact (claim_C6_amended "menu" []
      (fun stage _ => if stage = 3 then LLMResult.raise
        else LLMResult.completion none)
      "s" (LineBot.set_api_key "s" emptyDB "u1" (some "k")) "line" "u1" 3 "k"
      (by decide) (by decide) (by decide) (by decide) rfl rfl).2.1 rfl

/-- Claim C9: whenever the menu-analysis service answers 200, its body has
exactly the keys response, metadata and debug_info, so the telegram adapter
send_image_analyze — which reads the key llm_3_output from the body — finds
nothing and raises the no-reply error instead of returning the analysis text;
it also posts the same analysis request twice before raising. -/
theorem claim_C9 (secret : String) (db : DB) (al : List String)
    (pl puid : String) (fs : Nat) (ocr : OcrOutcome) (p : LLMProvider)
    (body : List (String × JVal))
    (hok : MenuAnalysis.analyze_menu secret db al pl puid fs ocr p
      = AnalyzeResult.ok body) :
    body.map Prod.fst = ["response", "metadata", "debug_info"] ∧
      dictGet body "llm_3_output" = none ∧
      TelegramBot.send_image_analyze (fun _ => SvcResponse.ok body)
        = (Except.error (TgSendError.noReply body), 2) := by
  have hbody : ∃ llms rawText, body = responseDict llms al pl puid rawText fs := by
    unfold MenuAnalysis.analyze_menu at hok
    split at hok
    · exact absurd hok (by simp)
    · split at hok
      · exact absurd hok (by simp)
      · split at hok
        · exact absurd hok (by simp)
        · split at hok
          · exact absurd hok (by simp)
          · split at hok
            · exact absurd hok (by simp)
            · rw [AnalyzeResult.ok.injEq] at hok
              exact ⟨_, _, hok.symm⟩
  obtain ⟨llms, rawText, hb⟩ := hbody
  subst hb
  have hkeys : (responseDict llms al pl puid rawText fs).map Prod.fst
      = ["response", "metadata", "debug_info"] := rfl
  have hget : dictGet (responseDict llms al pl puid rawText fs) "llm_3_output"
      = none := rfl
  refine ⟨hkeys, hget, ?_⟩
  unfold TelegramBot.send_image_analyze
  dsimp only
  rw [hget]

/-- Concrete instance of claim C9: the service answer for an all-empty
provider is a 200 body on which the adapter raises after two posts. -/
theorem claim_C9_witness :
    MenuAnalysis.analyze_menu "s" (LineBot.set_api_key "s" emptyDB "u1"
        (some "k")) [] "line" "u1" 3 (OcrOutcome.text "m")
        (fun _ _ => LLMResult.completion none)
      = AnalyzeResult.ok (responseDict "" [] "line" "u1" "m" 3) ∧
      TelegramBot.send_image_analyze
          (fun _ => SvcResponse.ok (responseDict "" [] "line" "u1" "m" 3))
        = (Except.error (TgSendError.noReply
            (responseDict "" [] "line" "u1" "m" 3)), 2) := by
  refine ⟨rfl, ?_⟩
  exact (claim_C9 "s" (LineBot.set_api_key "s" emptyDB "u1" (some "k")) []
    "line" "u1" 3 (OcrOutcome.text "m") (fun _ _ => LLMResult.completion none)
    (responseDict "" [] "line" "u1" "m" 3) rfl).2.2
